import Mathlib

/-!
Verification development for the DNS propagation checker of
`scripts/check-propagation.js` and the DNSSEC playwright test suite.

The JavaScript code is shallowly embedded: the asynchronous DNS resolution
calls are an external collaborator, modelled as an explicit `Oracle`
argument mapping (server address, resolution method, domain) to either a
result value or a thrown error; JavaScript numbers appearing in the
percentage computation are modelled as exact rationals extended with the
special values `NaN` and `Infinity` (`JsNum`); `Promise.all` over the fixed
server list is modelled by `List.map` together with an explicit
completion-order model (`promiseAllOrdered`) showing the slot-indexed
aggregation is independent of completion order.
-/

namespace DnsPropagation

/-! ### JavaScript values returned by the resolver

`resolve4`/`resolve6`/`resolveCname`/`resolveNs` return arrays of strings,
`resolveMx` returns arrays of objects such as `{priority, exchange}`, and
`resolveTxt` returns arrays of string arrays.  The formatting code in
`checkDNSServer` discriminates with `Array.isArray` and `typeof r === 'object'`,
so we model a result as either a single primitive or an array whose elements
are primitives, objects (lists of fields), or arrays of primitives. -/

inductive JsPrim where
  | str : String → JsPrim
  | num : Int → JsPrim
deriving DecidableEq, Repr

/-- One element of an array-valued resolver result. -/
inductive JsElem where
  | prim : JsPrim → JsElem
  | arr : List JsPrim → JsElem
  | obj : List (String × JsPrim) → JsElem
deriving DecidableEq, Repr

/-- A resolver result: a single (non-array) value or an array of elements. -/
inductive JsResult where
  | single : JsPrim → JsResult
  | list : List JsElem → JsResult
deriving DecidableEq, Repr

/-- `typeof r === 'object'` for an array element: true exactly for arrays and
plain objects, false for strings and numbers. -/
def JsElem.isObjectType : JsElem → Bool
  | .prim _ => false
  | .arr _ => true
  | .obj _ => true

/-- Hexadecimal digit character (lower case), for JSON `\u00XX` escapes. -/
def hexDigitChar (n : Nat) : Char :=
  if n < 10 then Char.ofNat (48 + n) else Char.ofNat (87 + n)

/-- `JSON.stringify` escaping of one character inside a string literal. -/
def jsonEscapeChar (c : Char) : String :=
  if c = '"' then "\\\""
  else if c = '\\' then "\\\\"
  else if c = '\x08' then "\\b"
  else if c = '\x09' then "\\t"
  else if c = '\x0a' then "\\n"
  else if c = '\x0c' then "\\f"
  else if c = '\x0d' then "\\r"
  else if c.toNat < 32 then
    "\\u00" ++ String.mk [hexDigitChar (c.toNat / 16), hexDigitChar (c.toNat % 16)]
  else String.singleton c

def jsonEscape (s : String) : String :=
  String.join (s.toList.map jsonEscapeChar)

/-- `JSON.stringify` of a primitive. -/
def jsonStringifyPrim : JsPrim → String
  | .str s => "\"" ++ jsonEscape s ++ "\""
  | .num n => toString n

/-- `JSON.stringify` of a plain object (field order is insertion order). -/
def jsonStringifyObj (fs : List (String × JsPrim)) : String :=
  "\x7b" ++
    String.intercalate ","
      (fs.map (fun kv => "\"" ++ jsonEscape kv.1 ++ "\":" ++ jsonStringifyPrim kv.2)) ++
  "\x7d"

/-- `JSON.stringify` of an array of primitives. -/
def jsonStringifyArr (ps : List JsPrim) : String :=
  "[" ++ String.intercalate "," (ps.map jsonStringifyPrim) ++ "]"

/-- The per-element function of
`result.map(r => typeof r === 'object' ? JSON.stringify(r) : r)` composed with
the element-to-string conversion performed by `Array.prototype.join`. -/
def displayElem : JsElem → String
  | .prim (.str s) => s
  | .prim (.num n) => toString n
  | .arr ps => jsonStringifyArr ps
  | .obj fs => jsonStringifyObj fs

/-- Lines 34–36 of `check-propagation.js`:
`Array.isArray(result) ? result.map(r => typeof r === 'object' ? JSON.stringify(r) : r).join(', ') : result`. -/
def formatResult : JsResult → JsResult
  | .list xs => .single (.str (String.intercalate ", " (xs.map displayElem)))
  | .single p => .single p

/-! ### Errors and JS numbers -/

/-- A thrown resolution error: Node.js DNS errors carry a `code` property
(e.g. `ENOTFOUND`, `ETIMEOUT`); other errors only a `message`. -/
structure JsError where
  code : Option String
  message : String
deriving DecidableEq, Repr

/-- `error.code || error.message`: the `code` when it is present and truthy
(a non-empty string), else the `message`. -/
def jsErrorDisplay (e : JsError) : String :=
  match e.code with
  | some c => if c = "" then e.message else c
  | none => e.message

/-- JavaScript numbers as used in the percentage computation: exact rationals
extended with `NaN` and `Infinity` (negative values never arise here). -/
inductive JsNum where
  | nan : JsNum
  | inf : JsNum
  | val : ℚ → JsNum
deriving DecidableEq, Repr

/-- `propagated / total` on JS numbers: `0/0` is `NaN`, `p/0` is `Infinity`
for `p > 0`. -/
def jsDivNat (p t : Nat) : JsNum :=
  if t = 0 then (if p = 0 then .nan else .inf) else .val ((p : ℚ) / (t : ℚ))

/-- Multiplication by the literal `100`. -/
def jsMul100 : JsNum → JsNum
  | .nan => .nan
  | .inf => .inf
  | .val q => .val (q * 100)

/-- `Math.round`: half-up rounding; `NaN` and `Infinity` are fixed points. -/
def jsRound : JsNum → JsNum
  | .nan => .nan
  | .inf => .inf
  | .val q => .val ((⌊q + 1/2⌋ : ℤ) : ℚ)

/-! ### Servers, probes and the fan-out -/

/-- An entry of the `DNS_SERVERS` constant. -/
structure Server where
  name : String
  ip : String
deriving DecidableEq, Repr

/-- The module-level `DNS_SERVERS` list of `check-propagation.js`. -/
def DNS_SERVERS : List Server :=
  [ ⟨"Google", "8.8.8.8"⟩
  , ⟨"Google Secondary", "8.8.4.4"⟩
  , ⟨"Cloudflare", "1.1.1.1"⟩
  , ⟨"Cloudflare Secondary", "1.0.0.1"⟩
  , ⟨"OpenDNS", "208.67.222.222"⟩
  , ⟨"Quad9", "9.9.9.9"⟩ ]

/-- The record returned by `checkDNSServer`: on success the object carries
`server`, `success: true` and `value`; on failure `server`, `success: false`
and `error`.  Absent fields are `none`. -/
structure ProbeOutcome where
  server : String
  success : Bool
  value : Option JsResult
  error : Option String
deriving DecidableEq, Repr

/-- The external DNS resolution capability: given the server address the
resolver was pinned to (`resolver.setServers([server.ip])`), the name of the
resolution method, and the domain, it either returns a result or throws. -/
abbrev Oracle := String → String → String → Except JsError JsResult

/-- Lines 21–28: the record-type-to-method lookup table with its `|| 'resolve4'`
fallback for unsupported kinds. -/
def resolveMethodFor (recordType : String) : String :=
  if recordType = "A" then "resolve4"
  else if recordType = "AAAA" then "resolve6"
  else if recordType = "CNAME" then "resolveCname"
  else if recordType = "MX" then "resolveMx"
  else if recordType = "TXT" then "resolveTxt"
  else if recordType = "NS" then "resolveNs"
  else "resolve4"

/-- `checkDNSServer(domain, recordType, server)` (lines 17–41): pick the
resolution method, call it through the oracle, and convert either outcome —
the `try/catch` means both branches produce a `ProbeOutcome` record and no
exception escapes. -/
def checkDNSServer (oracle : Oracle) (domain recordType : String)
    (server : Server) : ProbeOutcome :=
  match oracle server.ip (resolveMethodFor recordType) domain with
  | .ok result =>
      { server := server.name, success := true
      , value := some (formatResult result), error := none }
  | .error e =>
      { server := server.name, success := false
      , value := none, error := some (jsErrorDisplay e) }

/-- The record returned by `checkPropagation` (line 84). -/
structure PropagationReport where
  propagated : Nat
  total : Nat
  percentage : JsNum
  results : List ProbeOutcome
deriving DecidableEq, Repr

/-- `checkPropagation(domain, recordType)` (lines 43–85), with the server list
passed explicitly (the source reads the module constant `DNS_SERVERS`):
`Promise.all(DNS_SERVERS.map(server => checkDNSServer(...)))` keeps input
order, `propagated = results.filter(r => r.success).length`,
`total = results.length`,
`percentage = Math.round((propagated / total) * 100)`. -/
def checkPropagation (oracle : Oracle) (domain recordType : String)
    (servers : List Server) : PropagationReport :=
  let results := servers.map (checkDNSServer oracle domain recordType)
  let propagated := (results.filter (fun r => r.success)).length
  let total := results.length
  let percentage := jsRound (jsMul100 (jsDivNat propagated total))
  { propagated := propagated, total := total
  , percentage := percentage, results := results }

/-! ### Promise.all with an explicit completion order

`Promise.all` stores each promise's value at that promise's slot index as it
settles and resolves with the slot array once every slot is filled, so the
aggregate order is the input order regardless of completion order.  We model
the settlement phase explicitly: `order` is the sequence (by index) in which
probes complete. -/

def settleAll {α : Type} (tasks : List α) : List Nat → List (Option α) → List (Option α)
  | [], slots => slots
  | i :: rest, slots =>
      settleAll tasks rest
        (match tasks[i]? with
         | some v => slots.set i (some v)
         | none => slots)

/-- The value `Promise.all` resolves with, given the completion order of the
tasks: `none` when some task never settled. -/
def promiseAllOrdered {α : Type} (tasks : List α) (order : List Nat) : Option (List α) :=
  let slots := settleAll tasks order (List.replicate tasks.length none)
  if slots.all Option.isSome then some (slots.filterMap id) else none

/-! ### The poll loop `monitorPropagation`

`monitorPropagation(domain, recordType, intervalSeconds, maxAttempts)`
(lines 87–105) runs `for (attempt = 1; attempt <= maxAttempts; attempt++)`:
each iteration awaits one fan-out, returns `true` as soon as
`percentage === 100`, and when `attempt < maxAttempts` awaits a
`setTimeout` of `intervalSeconds * 1000` ms before the next iteration;
after the loop it returns `false`.

The fan-out is injected as `fanout : Nat → PropagationReport` (the report of
round `attempt`); the source instantiates it with
`checkPropagation(domain, recordType)`.  Besides the boolean we record the
trace of externally visible steps — fan-out rounds and timer waits — in
order, which both makes the number of fan-out calls and the placement and
duration of the waits provable. -/

inductive MEvent where
  | round : Nat → MEvent
  | wait : Nat → MEvent
deriving DecidableEq, Repr

def MEvent.isRound : MEvent → Bool
  | .round _ => true
  | .wait _ => false

def MEvent.isWait : MEvent → Bool
  | .round _ => false
  | .wait _ => true

/-- The loop body from iteration `attempt` on, with `fuel` the number of
remaining permitted iterations (`maxAttempts - attempt + 1`). -/
def monitorGo (fanout : Nat → PropagationReport) (interval maxAttempts : Nat) :
    Nat → Nat → List MEvent × Bool
  | 0, _ => ([], false)
  | fuel + 1, attempt =>
      if (fanout attempt).percentage = JsNum.val 100 then
        ([.round attempt], true)
      else if attempt < maxAttempts then
        match monitorGo fanout interval maxAttempts fuel (attempt + 1) with
        | (evs, b) => (.round attempt :: .wait interval :: evs, b)
      else
        ([.round attempt], false)

/-- `monitorPropagation` itself: the loop starts at `attempt = 1` with
`maxAttempts` iterations permitted. -/
def monitorPropagation (fanout : Nat → PropagationReport) (interval maxAttempts : Nat) :
    List MEvent × Bool :=
  monitorGo fanout interval maxAttempts maxAttempts 1

/-- The shape the spec asserts for a trace of `k` rounds starting at attempt
`a`: rounds separated by waits of `interval`, no wait after the last round. -/
def altTrace (interval a : Nat) : Nat → List MEvent
  | 0 => []
  | 1 => [.round a]
  | n + 2 => .round a :: .wait interval :: altTrace interval (a + 1) (n + 1)

/-! ### CLI argument handling of `main` (lines 107–123)

`const domain = args[0] || 'example.com';`
`const recordType = args[1]?.toUpperCase() || 'A';`
`const monitor = args.includes('--monitor');`
(`args` is `process.argv.slice(2)`).  JavaScript `||` falls through on the
empty string, and `jsToUpperCase` models `toUpperCase` (they agree on the
ASCII strings that occur as record kinds and CLI flags). -/

/-- ASCII uppercase of one character, as `toUpperCase` acts on ASCII. -/
def jsCharUpper (c : Char) : Char :=
  if 97 ≤ c.toNat ∧ c.toNat ≤ 122 then Char.ofNat (c.toNat - 32) else c

/-- `String.prototype.toUpperCase` restricted to ASCII. -/
def jsToUpperCase (s : String) : String :=
  String.mk (s.toList.map jsCharUpper)

/-- `x || dflt` for an optional string: `undefined` and `""` are falsy. -/
def jsOrDefault (x : Option String) (dflt : String) : String :=
  match x with
  | none => dflt
  | some s => if s = "" then dflt else s

def argsDomain (args : List String) : String :=
  jsOrDefault args[0]? "example.com"

def argsRecordType (args : List String) : String :=
  jsOrDefault (args[1]?.map jsToUpperCase) "A"

def argsMonitor (args : List String) : Bool :=
  args.contains "--monitor"

end DnsPropagation

namespace DnssecTest

/-!
### The DNSSEC signature-validity test

`test('DNSSEC signatures are valid (not expired)')` (tests file, lines
310–342) runs
`rrsigOutput.match(/(\d{14})\s+(\d{14})\s+(\d+)\s+/)`, reads capture group 1
as `expiration` and group 3 as `keyTag`, builds
`new Date(parseInt(exp.slice(0,4)), parseInt(exp.slice(4,6)) - 1, ...)`
from the six two-or-four digit slices, and asserts
`expDate.getTime() > now.getTime()`.

The regex is embedded directly: for this pattern a greedy left-to-right
matcher is exactly equivalent to the backtracking JavaScript engine, because
after every maximal `\d`-run or `\s`-run the next pattern atom can never
match inside the run it would backtrack into (a digit is not whitespace and
vice versa).  `new Date(y, m, d, h, mi, s)` interprets its arguments as raw
calendar components (no time-zone arithmetic is performed on the parsed
digits); turning the components into an epoch instant is the host `Date`
library's concern, kept abstract as `getTime`. -/

/-- JavaScript regex `\s` on the ASCII range. -/
def isJsSpace (c : Char) : Bool :=
  c = ' ' || c = '\x09' || c = '\x0a' || c = '\x0b' || c = '\x0c' || c = '\x0d'

/-- Consume exactly `n` digit characters. -/
def takeExactDigits : Nat → List Char → Option (List Char × List Char)
  | 0, cs => some ([], cs)
  | _ + 1, [] => none
  | n + 1, c :: cs =>
      if c.isDigit then
        (takeExactDigits n cs).map (fun p => (c :: p.1, p.2))
      else none

/-- Greedily drop whitespace. -/
def dropSpacesGreedy : List Char → List Char
  | [] => []
  | c :: cs => if isJsSpace c then dropSpacesGreedy cs else c :: cs

/-- `\s+`: at least one whitespace character, then greedily the rest. -/
def dropSpaces1 : List Char → Option (List Char)
  | [] => none
  | c :: cs => if isJsSpace c then some (dropSpacesGreedy cs) else none

/-- Greedily take digits. -/
def takeDigitsGreedy : List Char → List Char × List Char
  | [] => ([], [])
  | c :: cs =>
      if c.isDigit then
        match takeDigitsGreedy cs with
        | (ds, r) => (c :: ds, r)
      else ([], c :: cs)

/-- `\d+`: at least one digit, then greedily the rest. -/
def takeDigits1 : List Char → Option (List Char × List Char)
  | [] => none
  | c :: cs => if c.isDigit then some (takeDigitsGreedy (c :: cs)) else none

/-- Attempt to match `(\d{14})\s+(\d{14})\s+(\d+)\s+` at the start of `cs`,
returning the three capture groups. -/
def rrsigMatchAt (cs : List Char) : Option (String × String × String) := do
  let p1 ← takeExactDigits 14 cs
  let r2 ← dropSpaces1 p1.2
  let p3 ← takeExactDigits 14 r2
  let r4 ← dropSpaces1 p3.2
  let p5 ← takeDigits1 r4
  let _ ← dropSpaces1 p5.2
  pure (String.mk p1.1, String.mk p3.1, String.mk p5.1)

/-- Leftmost match of the pattern, as `String.prototype.match` finds it. -/
def rrsigFind : List Char → Option (String × String × String)
  | [] => none
  | c :: cs =>
      match rrsigMatchAt (c :: cs) with
      | some g => some g
      | none => rrsigFind cs

/-- The six arguments the test passes to `new Date(...)`: raw calendar
components in local time, before any normalisation by the `Date` library. -/
structure JsDate where
  year : Int
  monthIndex : Int
  day : Int
  hours : Int
  minutes : Int
  seconds : Int
deriving DecidableEq, Repr

/-- `parseInt` on the digit-only slices produced by the regex (on such
strings `parseInt` is plain base-10 evaluation of the leading digits). -/
def jsParseIntDigits (s : String) : Int :=
  (s.toList.foldl (fun acc c => if c.isDigit then acc * 10 + (c.toNat - 48) else acc) 0 : Nat)

/-- `String.prototype.slice(a, b)` for the in-range indices used here. -/
def jsSlice (s : String) (a b : Nat) : String :=
  String.mk ((s.toList.drop a).take (b - a))

/-- Lines 326–333: the expiration `Date` built from the first capture group —
each component is the raw numeric value of its digit slice (month shifted to
a 0-based index); no time-zone offset is added or subtracted. -/
def parseExpDate (expiration : String) : JsDate :=
  { year := jsParseIntDigits (jsSlice expiration 0 4)
  , monthIndex := jsParseIntDigits (jsSlice expiration 4 6) - 1
  , day := jsParseIntDigits (jsSlice expiration 6 8)
  , hours := jsParseIntDigits (jsSlice expiration 8 10)
  , minutes := jsParseIntDigits (jsSlice expiration 10 12)
  , seconds := jsParseIntDigits (jsSlice expiration 12 14) }

/-- The expiration date the test validates against, when the regex matches:
built from capture group 1 alone (group 2, the inception time, and group 3,
the key tag, do not feed the decision). -/
def signatureExpirationDate (rrsigOutput : String) : Option JsDate :=
  (rrsigFind rrsigOutput.toList).map (fun g => parseExpDate g.1)

/-- The assertion `expect(expDate.getTime()).toBeGreaterThan(now.getTime())`
as a predicate of the answer text and the current instant, parametrised by
the host `Date` semantics `getTime`; when the regex does not match, the
`if (expirationMatch)` guard skips the assertion and the test passes. -/
def signatureNotExpired (getTime : JsDate → Int) (rrsigOutput : String)
    (now : Int) : Bool :=
  match rrsigFind rrsigOutput.toList with
  | some g => now < getTime (parseExpDate g.1)
  | none => true

/-- A `dig ... +dnssec +noall +answer` style answer line; expiration
`20260101000000`, inception `20250315000000`, key tag `12345`. -/
def rrsigText1 : String :=
  "example.com. 3600 IN RRSIG SOA 13 2 3600 20260101000000 20250315000000 12345 example.com. abc="

/-- Same expiration as `rrsigText1` but a different inception time
(`20240101000000`) and key tag. -/
def rrsigText2 : String :=
  "example.com. 3600 IN RRSIG SOA 13 2 3600 20260101000000 20240101000000 54321 example.com. xyz="

end DnssecTest

namespace DnsPropagation

/-! ### Concrete instances used to exercise the theorems -/

/-- An oracle on which every resolution call throws a Node.js DNS error. -/
def oracleAllFail : Oracle :=
  fun _ _ _ => .error ⟨some "ETIMEOUT", "query timed out"⟩

/-- An oracle returning an MX-style result: an array of structured records. -/
def oracleMx : Oracle :=
  fun _ _ _ =>
    .ok (.list
      [ .obj [("priority", .num 10), ("exchange", .str "mail.example.com")]
      , .obj [("priority", .num 20), ("exchange", .str "backup.example.com")] ])

/-- An injected fan-out that always reports full propagation. -/
def fanout100 : Nat → PropagationReport :=
  fun _ => { propagated := 6, total := 6, percentage := JsNum.val 100, results := [] }

/-- An injected fan-out that always reports partial propagation. -/
def fanout50 : Nat → PropagationReport :=
  fun _ => { propagated := 3, total := 6, percentage := JsNum.val 50, results := [] }

/-! ### C4: unsupported record kinds fall back to the A-record operation -/

/-- **C4.** For every record kind outside `{A, AAAA, CNAME, MX, TXT, NS}`, the
method lookup of `checkDNSServer` falls back to `resolve4` — the operation
selected for kind `A` — and the probe behaves identically to a probe with
kind `A` under every oracle. -/
theorem c4_unsupported_kind_falls_back (k : String)
    (hk : k ∉ (["A", "AAAA", "CNAME", "MX", "TXT", "NS"] : List String)) :
    resolveMethodFor k = "resolve4" ∧
    resolveMethodFor k = resolveMethodFor "A" ∧
    ∀ (oracle : Oracle) (domain : String) (s : Server),
      checkDNSServer oracle domain k s = checkDNSServer oracle domain "A" s := by
  have h : k ≠ "A" ∧ k ≠ "AAAA" ∧ k ≠ "CNAME" ∧ k ≠ "MX" ∧ k ≠ "TXT" ∧ k ≠ "NS" := by
    simpa using hk
  obtain ⟨h1, h2, h3, h4, h5, h6⟩ := h
  have hmeth : resolveMethodFor k = "resolve4" := by
    simp [resolveMethodFor, h1, h2, h3, h4, h5, h6]
  have hA : resolveMethodFor "A" = "resolve4" := rfl
  refine ⟨hmeth, hmeth.trans hA.symm, ?_⟩
  intro oracle domain s
  unfold checkDNSServer
  rw [hmeth, hA]

/-- Witness for C4 at the spec's example kind `"SRV"`. -/
theorem c4_witness :
    resolveMethodFor "SRV" = "resolve4" ∧
    resolveMethodFor "SRV" = resolveMethodFor "A" :=
  ⟨(c4_unsupported_kind_falls_back "SRV" (by decide)).1,
   (c4_unsupported_kind_falls_back "SRV" (by decide)).2.1⟩

/-! ### C9: the empty target list produces a NaN percentage -/

/-- **C9.** `checkPropagation` applied to an empty target list raises no error
(there is no `ConfigurationError` guard): it returns a report with
`propagated = 0`, `total = 0` and `percentage = Math.round((0/0)*100) = NaN`,
and that percentage lies outside `[0, 100]` — the range invariant fails on
exactly this edge case. -/
theorem c9_empty_target_list (oracle : Oracle) (domain recordType : String) :
    checkPropagation oracle domain recordType [] =
      { propagated := 0, total := 0, percentage := JsNum.nan, results := [] } ∧
    ¬ ∃ q : ℚ, (checkPropagation oracle domain recordType []).percentage = JsNum.val q ∧
        0 ≤ q ∧ q ≤ 100 := by
  refine ⟨rfl, ?_⟩
  rintro ⟨q, hq, -, -⟩
  simp [checkPropagation, jsRound, jsMul100, jsDivNat] at hq

/-! ### C2: probe failures are contained, never escalated -/

/-- **C2.** Any failure thrown by the underlying resolution call is converted
by `checkDNSServer`'s `try/catch` into an outcome with `success = false` and
`error = error.code || error.message`; the probe is a total function, so no
exception propagates, and a fan-out call always yields exactly one outcome
per target. -/
theorem c2_probe_failures_contained (oracle : Oracle) (domain recordType : String)
    (servers : List Server) :
    (checkPropagation oracle domain recordType servers).results.length = servers.length ∧
    ∀ (e : JsError) (d t : String) (s : Server),
      oracle s.ip (resolveMethodFor t) d = Except.error e →
      checkDNSServer oracle d t s =
        { server := s.name, success := false, value := none
        , error := some (jsErrorDisplay e) } := by
  refine ⟨by simp [checkPropagation], ?_⟩
  intro e d t s h
  unfold checkDNSServer
  rw [h]

/-- Witness for C2: a timed-out probe against the Google target yields the
failure outcome with the error code as reason. -/
theorem c2_witness :
    checkDNSServer oracleAllFail "example.org" "MX" ⟨"Google", "8.8.8.8"⟩ =
      { server := "Google", success := false, value := none
      , error := some "ETIMEOUT" } := by
  simpa using
    (c2_probe_failures_contained oracleAllFail "example.org" "MX" []).2
      ⟨some "ETIMEOUT", "query timed out"⟩ "example.org" "MX" ⟨"Google", "8.8.8.8"⟩ rfl

/-! ### C10: CLI record kind is uppercased; `--monitor` as second argument -/

/-- **C10.** The second positional argument is uppercased before the
record-kind lookup, so the probe's behaviour depends only on the uppercased
form (lowercase kinds behave identically to their uppercase forms); invoking
with `--monitor` as the second argument makes the record kind the string
`"--MONITOR"` (while also enabling monitor mode), which the unsupported-kind
fallback silently maps to the A-record operation instead of rejecting the
invocation. -/
theorem c10_cli_record_kind_uppercased :
    (∀ (s1 s2 d : String) (r1 r2 : List String) (oracle : Oracle) (dom : String) (srv : Server),
       jsToUpperCase s1 = jsToUpperCase s2 →
       checkDNSServer oracle dom (argsRecordType (d :: s1 :: r1)) srv =
         checkDNSServer oracle dom (argsRecordType (d :: s2 :: r2)) srv) ∧
    (∀ (d : String) (rest : List String),
       argsRecordType (d :: "--monitor" :: rest) = "--MONITOR" ∧
       argsMonitor (d :: "--monitor" :: rest) = true) ∧
    resolveMethodFor "--MONITOR" = "resolve4" ∧
    (∀ (oracle : Oracle) (dom : String) (srv : Server),
       checkDNSServer oracle dom "--MONITOR" srv = checkDNSServer oracle dom "A" srv) := by
  refine ⟨?_, ?_, rfl, ?_⟩
  · intro s1 s2 d r1 r2 oracle dom srv h
    have : argsRecordType (d :: s1 :: r1) = argsRecordType (d :: s2 :: r2) := by
      simp [argsRecordType, h]
    rw [this]
  · intro d rest
    refine ⟨?_, ?_⟩
    · simp [argsRecordType, jsOrDefault]
      decide
    · simp [argsMonitor]
  · intro oracle dom srv
    unfold checkDNSServer
    rfl

/-- Witness for C10: `cname` and `CNAME` as second CLI argument produce the
same probe behaviour. -/
theorem c10_witness :
    checkDNSServer oracleAllFail "mydomain.com"
        (argsRecordType ["mydomain.com", "cname"]) ⟨"Google", "8.8.8.8"⟩ =
      checkDNSServer oracleAllFail "mydomain.com"
        (argsRecordType ["mydomain.com", "CNAME"]) ⟨"Google", "8.8.8.8"⟩ :=
  c10_cli_record_kind_uppercased.1 "cname" "CNAME" "mydomain.com" [] []
    oracleAllFail "mydomain.com" ⟨"Google", "8.8.8.8"⟩ (by decide)

/-! ### C7: formatting of successful probe values -/

/-- **C7.** For every successful probe, the outcome's value is computed from
the resolver result as the source does: a single (non-array) result is kept
as-is; an array result is joined into one comma-separated string whose
pieces are the JSON serialisation of each structured-record element and the
unchanged text of each plain string element (an MX record serialises to its
JSON object text). -/
theorem c7_success_value_formatting (oracle : Oracle) (d t : String) (s : Server) :
    (∀ p : JsPrim,
       oracle s.ip (resolveMethodFor t) d = Except.ok (JsResult.single p) →
       (checkDNSServer oracle d t s).value = some (JsResult.single p)) ∧
    (∀ xs : List JsElem,
       oracle s.ip (resolveMethodFor t) d = Except.ok (JsResult.list xs) →
       (checkDNSServer oracle d t s).value =
         some (.single (.str (String.intercalate ", " (xs.map displayElem))))) ∧
    (∀ str : String, displayElem (.prim (.str str)) = str) ∧
    (∀ fs, displayElem (.obj fs) = jsonStringifyObj fs) ∧
    jsonStringifyObj [("priority", .num 10), ("exchange", .str "mail.example.com")] =
      "\x7b\"priority\":10,\"exchange\":\"mail.example.com\"\x7d" := by
  refine ⟨?_, ?_, fun _ => rfl, fun _ => rfl, by decide⟩
  · intro p h
    unfold checkDNSServer
    rw [h]
    rfl
  · intro xs h
    unfold checkDNSServer
    rw [h]
    rfl

/-- Witness for C7: an MX result with two structured records formats to the
comma-separated JSON texts. -/
theorem c7_witness :
    (checkDNSServer oracleMx "example.org" "MX" ⟨"Google", "8.8.8.8"⟩).value =
      some (.single (.str
        ("\x7b\"priority\":10,\"exchange\":\"mail.example.com\"\x7d, " ++
         "\x7b\"priority\":20,\"exchange\":\"backup.example.com\"\x7d"))) := by
  have h :=
    (c7_success_value_formatting oracleMx "example.org" "MX" ⟨"Google", "8.8.8.8"⟩).2.1
      [ .obj [("priority", .num 10), ("exchange", .str "mail.example.com")]
      , .obj [("priority", .num 20), ("exchange", .str "backup.example.com")] ] rfl
  rw [h]
  decide

end DnsPropagation

namespace DnsPropagation

/-! ### C1: invariants of one fan-out report -/

/-- The `Math.round((propagated / total) * 100)` pipeline equals half-up
rounding of the exact rational `100 * propagated / total` whenever the
denominator is non-zero. -/
theorem percentage_pipeline (p t : Nat) (ht : t ≠ 0) :
    jsRound (jsMul100 (jsDivNat p t)) =
      JsNum.val ((⌊100 * (p : ℚ) / (t : ℚ) + 1/2⌋ : ℤ) : ℚ) := by
  have h1 : ((p : ℚ) / (t : ℚ)) * 100 = 100 * (p : ℚ) / (t : ℚ) := by ring
  unfold jsDivNat
  rw [if_neg ht]
  simp only [jsMul100, jsRound]
  rw [h1]

/-- Bounds of the rounded percentage when `p ≤ t` and `t ≠ 0`. -/
theorem percentage_bounds (p t : Nat) (hpt : p ≤ t) (ht : t ≠ 0) :
    (0 : ℚ) ≤ ((⌊100 * (p : ℚ) / (t : ℚ) + 1/2⌋ : ℤ) : ℚ) ∧
    ((⌊100 * (p : ℚ) / (t : ℚ) + 1/2⌋ : ℤ) : ℚ) ≤ 100 := by
  have htpos : (0 : ℚ) < (t : ℚ) := by
    exact_mod_cast Nat.pos_of_ne_zero ht
  have hx0 : (0 : ℚ) ≤ 100 * (p : ℚ) / (t : ℚ) := by positivity
  have hcast : (p : ℚ) ≤ (t : ℚ) := by exact_mod_cast hpt
  have hx1 : 100 * (p : ℚ) / (t : ℚ) ≤ 100 := by
    rw [div_le_iff htpos]
    nlinarith
  constructor
  · have h : (0 : ℤ) ≤ ⌊100 * (p : ℚ) / (t : ℚ) + 1/2⌋ :=
      Int.floor_nonneg.mpr (by linarith)
    exact_mod_cast h
  · have h : ⌊100 * (p : ℚ) / (t : ℚ) + 1/2⌋ ≤ 100 := by
      have h101 : 100 * (p : ℚ) / (t : ℚ) + 1/2 < ((101 : ℤ) : ℚ) := by
        push_cast
        linarith
      exact Int.lt_add_one_iff.mp (Int.floor_lt.mpr h101)
    exact_mod_cast h

theorem floor_half_q : (⌊(0 : ℚ) + 1/2⌋ : ℤ) = 0 := by
  norm_num

theorem floor_hundred_half_q : (⌊(100 : ℚ) + 1/2⌋ : ℤ) = 100 := by
  norm_num

/-- **C1.** For every report produced by one fan-out round over a non-empty
target list: `total` is the size of the target list, `propagated` counts the
successful outcomes, `percentage` equals the half-up rounding of
`100 * propagated / total`, the percentage lies in `[0, 100]`, an all-failed
round reports `0`, and an all-successful round reports `100`. -/
theorem c1_report_invariants (oracle : Oracle) (domain recordType : String)
    (servers : List Server) (hne : servers ≠ [])
    (r : PropagationReport) (hr : r = checkPropagation oracle domain recordType servers) :
    r.total = servers.length ∧
    r.propagated = (r.results.filter (fun o => o.success)).length ∧
    r.percentage = JsNum.val ((⌊100 * (r.propagated : ℚ) / (r.total : ℚ) + 1/2⌋ : ℤ) : ℚ) ∧
    (∃ q : ℚ, r.percentage = JsNum.val q ∧ 0 ≤ q ∧ q ≤ 100) ∧
    ((∀ o ∈ r.results, o.success = false) → r.percentage = JsNum.val 0) ∧
    ((∀ o ∈ r.results, o.success = true) → r.percentage = JsNum.val 100) := by
  subst hr
  have hres : (checkPropagation oracle domain recordType servers).results
      = servers.map (checkDNSServer oracle domain recordType) := rfl
  have hprop : (checkPropagation oracle domain recordType servers).propagated
      = ((servers.map (checkDNSServer oracle domain recordType)).filter
          (fun o => o.success)).length := rfl
  have htot : (checkPropagation oracle domain recordType servers).total
      = (servers.map (checkDNSServer oracle domain recordType)).length := rfl
  have hperc : (checkPropagation oracle domain recordType servers).percentage
      = jsRound (jsMul100 (jsDivNat
          ((servers.map (checkDNSServer oracle domain recordType)).filter
            (fun o => o.success)).length
          (servers.map (checkDNSServer oracle domain recordType)).length)) := rfl
  have ht0 : (servers.map (checkDNSServer oracle domain recordType)).length ≠ 0 := by
    simp only [List.length_map]
    intro h
    exact hne (List.length_eq_zero.mp h)
  have hpt : ((servers.map (checkDNSServer oracle domain recordType)).filter
        (fun o => o.success)).length
      ≤ (servers.map (checkDNSServer oracle domain recordType)).length :=
    List.length_filter_le _ _
  refine ⟨?_, ?_, ?_, ?_, ?_, ?_⟩
  · rw [htot, List.length_map]
  · rw [hprop, hres]
  · rw [hperc, percentage_pipeline _ _ ht0, hprop, htot]
  · refine ⟨_, ?_, (percentage_bounds _ _ hpt ht0).1, (percentage_bounds _ _ hpt ht0).2⟩
    rw [hperc, percentage_pipeline _ _ ht0]
  · intro hall
    have hp : ((servers.map (checkDNSServer oracle domain recordType)).filter
        (fun o => o.success)).length = 0 := by
      rw [List.length_eq_zero, List.filter_eq_nil]
      intro a ha
      simp [hall a (hres ▸ ha)]
    rw [hperc, percentage_pipeline _ _ ht0, hp]
    norm_num
  · intro hall
    have hp : ((servers.map (checkDNSServer oracle domain recordType)).filter
          (fun o => o.success))
        = servers.map (checkDNSServer oracle domain recordType) := by
      rw [List.filter_eq_self]
      intro a ha
      simp [hall a (hres ▸ ha)]
    rw [hperc, percentage_pipeline _ _ ht0, hp]
    have htq : ((servers.map (checkDNSServer oracle domain recordType)).length : ℚ) ≠ 0 := by
      exact_mod_cast ht0
    rw [mul_div_assoc, div_self htq, mul_one, floor_hundred_half_q]
    norm_num

/-- Witness for C1: six servers, all probes fail, percentage 0, and the
report satisfies all the invariants. -/
theorem c1_witness :
    (checkPropagation oracleAllFail "example.org" "A" DNS_SERVERS).total = 6 ∧
    (checkPropagation oracleAllFail "example.org" "A" DNS_SERVERS).percentage =
      JsNum.val 0 := by
  have h := c1_report_invariants oracleAllFail "example.org" "A" DNS_SERVERS
    (by decide) (checkPropagation oracleAllFail "example.org" "A" DNS_SERVERS) rfl
  refine ⟨by rw [h.1]; rfl, h.2.2.2.2.1 ?_⟩
  decide

end DnsPropagation

namespace DnsPropagation

/-! ### Characterisation of the poll loop -/

theorem altTrace_one (i a : Nat) : altTrace i a 1 = [MEvent.round a] := rfl

theorem altTrace_succ_succ (i a n : Nat) :
    altTrace i a (n + 2) = .round a :: .wait i :: altTrace i (a + 1) (n + 1) := rfl

/-- A non-empty alternating trace starts with its first round. -/
theorem altTrace_head (i a n : Nat) :
    ∃ rest, altTrace i a (n + 1) = MEvent.round a :: rest := by
  cases n with
  | zero => exact ⟨[], rfl⟩
  | succ m => exact ⟨_, rfl⟩

/-- The loop from `attempt` with `fuel = maxAttempts - attempt + 1` permitted
iterations stops at some attempt `k`: the first reporting `percentage == 100`,
or `maxAttempts` if none does; the trace is the alternating round/wait trace
from `attempt` to `k` and the boolean records whether round `k` hit 100%. -/
theorem monitorGo_spec (fanout : Nat → PropagationReport) (i m : Nat) :
    ∀ fuel attempt, 1 ≤ fuel → attempt + fuel = m + 1 →
    ∃ k, attempt ≤ k ∧ k ≤ m ∧
      monitorGo fanout i m fuel attempt =
        (altTrace i attempt (k + 1 - attempt),
         decide ((fanout k).percentage = JsNum.val 100)) ∧
      (∀ j, attempt ≤ j → j < k → (fanout j).percentage ≠ JsNum.val 100) ∧
      ((fanout k).percentage ≠ JsNum.val 100 → k = m) := by
  intro fuel
  induction fuel with
  | zero => intro attempt h1 _; omega
  | succ fuel ih =>
    intro attempt h1 h2
    by_cases hp : (fanout attempt).percentage = JsNum.val 100
    · refine ⟨attempt, le_refl _, by omega, ?_, ?_, ?_⟩
      · have harg : attempt + 1 - attempt = 1 := by omega
        rw [harg, altTrace_one]
        simp [monitorGo, hp]
      · intro j hj1 hj2; omega
      · intro hc; exact absurd hp hc
    · by_cases hlt : attempt < m
      · have hfuel : 1 ≤ fuel := by omega
        obtain ⟨k, hk1, hk2, hk3, hk4, hk5⟩ := ih (attempt + 1) hfuel (by omega)
        refine ⟨k, by omega, hk2, ?_, ?_, hk5⟩
        · have hstep : monitorGo fanout i m (fuel + 1) attempt =
              (MEvent.round attempt :: MEvent.wait i ::
                 (monitorGo fanout i m fuel (attempt + 1)).1,
               (monitorGo fanout i m fuel (attempt + 1)).2) := by
            simp [monitorGo, hp, hlt]
          rw [hstep, hk3]
          have h4 : k + 1 - attempt = (k - attempt - 1) + 2 := by omega
          have h5 : k + 1 - (attempt + 1) = (k - attempt - 1) + 1 := by omega
          rw [h4, altTrace_succ_succ, h5]
        · intro j hj1 hj2
          by_cases hj : j = attempt
          · subst hj; exact hp
          · exact hk4 j (by omega) hj2
      · have ham : attempt = m := by omega
        refine ⟨attempt, le_refl _, by omega, ?_, ?_, fun _ => ham⟩
        · have harg : attempt + 1 - attempt = 1 := by omega
          rw [harg, altTrace_one]
          simp [monitorGo, hp, hlt]
        · intro j hj1 hj2; omega

theorem countRounds_altTrace (i : Nat) :
    ∀ n a, (altTrace i a (n + 1)).countP MEvent.isRound = n + 1 := by
  intro n
  induction n with
  | zero => intro a; rfl
  | succ p ih =>
    intro a
    rw [altTrace_succ_succ]
    simp [List.countP_cons, MEvent.isRound, ih (a + 1)]

theorem countWaits_altTrace (i : Nat) :
    ∀ n a, (altTrace i a (n + 1)).countP MEvent.isWait = n := by
  intro n
  induction n with
  | zero => intro a; rfl
  | succ p ih =>
    intro a
    rw [altTrace_succ_succ]
    simp [List.countP_cons, MEvent.isWait, ih (a + 1)]

theorem getLast_altTrace (i : Nat) :
    ∀ n a, (altTrace i a (n + 1)).getLast? = some (MEvent.round (a + n)) := by
  intro n
  induction n with
  | zero => intro a; rfl
  | succ p ih =>
    intro a
    rw [altTrace_succ_succ]
    obtain ⟨rest, hrest⟩ := altTrace_head i (a + 1) p
    rw [hrest]
    have := ih (a + 1)
    rw [hrest] at this
    simp only [List.getLast?_cons_cons]
    rw [this]
    congr 2
    omega

theorem wait_mem_altTrace (i : Nat) :
    ∀ n a s, MEvent.wait s ∈ altTrace i a n → s = i := by
  intro n
  induction n using Nat.strong_induction_on with
  | _ n ih =>
    intro a s hmem
    match n with
    | 0 => simp [altTrace] at hmem
    | 1 =>
      rw [altTrace_one] at hmem
      simp at hmem
    | p + 2 =>
      rw [altTrace_succ_succ] at hmem
      rcases List.mem_cons.mp hmem with h | h
      · cases h
      · rcases List.mem_cons.mp h with h2 | h2
        · cases h2; rfl
        · exact ih (p + 1) (by omega) (a + 1) s h2

/-! ### C3: the poll loop returns true iff some round reaches 100% -/

/-- **C3.** `monitorPropagation` returns `true` iff some round among the
first `maxAttempts` rounds reports `percentage == 100`; a fan-out reporting
100% on the first attempt is called exactly once (the trace is a single
round); if every round reports less than 100%, exactly `maxAttempts` rounds
run — strictly sequentially, as the recursive trace construction shows — and
the loop returns `false`. -/
theorem c3_poll_loop (fanout : Nat → PropagationReport) (interval m : Nat)
    (hm : 1 ≤ m) :
    ((monitorPropagation fanout interval m).2 = true ↔
      ∃ k, 1 ≤ k ∧ k ≤ m ∧ (fanout k).percentage = JsNum.val 100) ∧
    ((fanout 1).percentage = JsNum.val 100 →
      monitorPropagation fanout interval m = ([MEvent.round 1], true)) ∧
    ((∀ k, 1 ≤ k → k ≤ m → (fanout k).percentage ≠ JsNum.val 100) →
      (monitorPropagation fanout interval m).2 = false ∧
      (monitorPropagation fanout interval m).1.countP MEvent.isRound = m) := by
  obtain ⟨k, hk1, hk2, hk3, hk4, hk5⟩ :=
    monitorGo_spec fanout interval m m 1 hm (by omega)
  have hmp : monitorPropagation fanout interval m =
      (altTrace interval 1 (k + 1 - 1),
       decide ((fanout k).percentage = JsNum.val 100)) := hk3
  refine ⟨?_, ?_, ?_⟩
  · constructor
    · intro htrue
      rw [hmp] at htrue
      simp only [decide_eq_true_eq] at htrue
      exact ⟨k, hk1, hk2, htrue⟩
    · rintro ⟨k', h1', h2', h3'⟩
      rw [hmp]
      simp only [decide_eq_true_eq]
      by_contra hc
      have hkm : k = m := hk5 hc
      rcases lt_or_eq_of_le (le_of_lt_or_eq (lt_or_eq_of_le h2')) with h | h
      · exact hk4 k' h1' (by omega) h3'
      · rcases Nat.lt_or_ge k' k with hlt | hge
        · exact hk4 k' h1' hlt h3'
        · have : k' = k := by omega
          subst this
          exact hc h3'
  · intro h1
    have hkone : k = 1 := by
      by_contra hne
      exact hk4 1 (le_refl _) (by omega) h1
    subst hkone
    rw [hmp]
    simp [altTrace_one, h1]
  · intro hall
    have hknot : (fanout k).percentage ≠ JsNum.val 100 := hall k hk1 hk2
    have hkm : k = m := hk5 hknot
    subst hkm
    rw [hmp]
    constructor
    · simp [hknot]
    · have harg : k + 1 - 1 = (k - 1) + 1 := by omega
      rw [harg, countRounds_altTrace]
      omega

/-- Witness for C3: an always-100% fan-out with budget 20 converges on the
first attempt with a single round. -/
theorem c3_witness :
    monitorPropagation fanout100 30 20 = ([MEvent.round 1], true) :=
  (c3_poll_loop fanout100 30 20 (by decide)).2.1 rfl

/-! ### C6: waits sit strictly between consecutive rounds -/

/-- **C6.** Within one run: the trace is exactly rounds alternating with
waits (`altTrace`), so a run performing `k` rounds performs exactly `k - 1`
waits, every wait lasts `intervalSeconds`, the final event is a round (never
a wait), and a run with `maxAttempts = 1` performs one round and no wait. -/
theorem c6_wait_placement (fanout : Nat → PropagationReport) (interval m : Nat)
    (hm : 1 ≤ m) :
    ∃ k, 1 ≤ k ∧ k ≤ m ∧
      (monitorPropagation fanout interval m).1 = altTrace interval 1 k ∧
      (monitorPropagation fanout interval m).1.countP MEvent.isRound = k ∧
      (monitorPropagation fanout interval m).1.countP MEvent.isWait = k - 1 ∧
      (monitorPropagation fanout interval m).1.getLast? = some (MEvent.round k) ∧
      (∀ s, MEvent.wait s ∈ (monitorPropagation fanout interval m).1 → s = interval) ∧
      (m = 1 → (monitorPropagation fanout interval m).1 = [MEvent.round 1]) := by
  obtain ⟨k, hk1, hk2, hk3, hk4, hk5⟩ :=
    monitorGo_spec fanout interval m m 1 hm (by omega)
  have htr : (monitorPropagation fanout interval m).1 = altTrace interval 1 k := by
    have h := congrArg Prod.fst hk3
    simpa [monitorPropagation, show k + 1 - 1 = k by omega] using h
  have hk' : k = (k - 1) + 1 := by omega
  refine ⟨k, hk1, hk2, htr, ?_, ?_, ?_, ?_, ?_⟩
  · rw [htr, hk', countRounds_altTrace]
  · rw [htr, hk', countWaits_altTrace]
    omega
  · rw [htr, hk', getLast_altTrace, Nat.add_comm]
  · intro s hmem
    rw [htr] at hmem
    exact wait_mem_altTrace interval k 1 s hmem
  · intro hm1
    have : k = 1 := by omega
    subst this
    rw [htr, altTrace_one]

/-- Witness for C6: a never-converging fan-out with budget 3 produces one
more round than waits. -/
theorem c6_witness :
    (monitorPropagation fanout50 30 3).1.countP MEvent.isWait + 1 =
      (monitorPropagation fanout50 30 3).1.countP MEvent.isRound := by
  obtain ⟨k, hk1, -, -, h4, h5, -, -, -⟩ := c6_wait_placement fanout50 30 3 (by decide)
  rw [h4, h5]
  omega

end DnsPropagation

namespace DnsPropagation

/-! ### Completion-order independence of the aggregation -/

theorem getq_set_self {α : Type} (l : List α) (i : Nat) (a : α)
    (h : i < l.length) : (l.set i a)[i]? = some a :=
  List.getElem?_set_eq_of_lt a h

theorem getq_set_ne {α : Type} (l : List α) (i j : Nat) (a : α)
    (h : i ≠ j) : (l.set i a)[j]? = l[j]? := by
  rw [List.getElem?_set]
  simp [h]

theorem settleAll_length {α : Type} (tasks : List α) :
    ∀ (order : List Nat) (slots : List (Option α)),
      (settleAll tasks order slots).length = slots.length
  | [], _ => rfl
  | i :: rest, slots => by
      unfold settleAll
      cases h : tasks[i]? with
      | none => simpa [h] using settleAll_length tasks rest slots
      | some v => simpa [h] using settleAll_length tasks rest (slots.set i (some v))

/-- Each settled slot holds the value of the task at its own index,
independently of where in the completion order the settlement happened. -/
theorem settleAll_getq {α : Type} (tasks : List α) :
    ∀ (order : List Nat) (slots : List (Option α)),
      slots.length = tasks.length →
      ∀ j, j < tasks.length →
        (settleAll tasks order slots)[j]? =
          if j ∈ order then some tasks[j]? else slots[j]? := by
  intro order
  induction order with
  | nil =>
    intro slots _ j _
    simp [settleAll]
  | cons i rest ih =>
    intro slots hlen j hj
    unfold settleAll
    cases hi : tasks[i]? with
    | none =>
      have hin : ¬ i < tasks.length := by
        intro hl
        rw [List.getElem?_eq_getElem hl] at hi
        cases hi
      have hji : j ≠ i := fun h => hin (h ▸ hj)
      rw [ih slots hlen j hj]
      by_cases hjr : j ∈ rest
      · simp [hjr, List.mem_cons]
      · simp [hjr, List.mem_cons, hji]
    | some v =>
      have hlen' : (slots.set i (some v)).length = tasks.length := by
        simpa using hlen
      rw [ih (slots.set i (some v)) hlen' j hj]
      by_cases hjr : j ∈ rest
      · simp [hjr, List.mem_cons]
      · by_cases hji : j = i
        · subst hji
          have hjs : j < slots.length := hlen ▸ hj
          rw [getq_set_self slots j (some v) hjs]
          simp [List.mem_cons, hi]
        · rw [getq_set_ne slots i j (some v) (fun h => hji h.symm)]
          simp [hjr, List.mem_cons, hji]

theorem list_ext_getq {α : Type} :
    ∀ (l1 l2 : List α), (∀ j : Nat, l1[j]? = l2[j]?) → l1 = l2
  | [], [], _ => rfl
  | [], _ :: _, h => by have h0 := h 0; simp at h0
  | _ :: _, [], h => by have h0 := h 0; simp at h0
  | a :: l1, b :: l2, h => by
      have h0 := h 0
      simp only [List.getElem?_cons_zero, Option.some.injEq] at h0
      have hrest := list_ext_getq l1 l2 (fun j => by simpa using h (j + 1))
      rw [h0, hrest]

/-- `Promise.all` delivers the tasks in declaration order under every
completion order that settles every task. -/
theorem promiseAllOrdered_eq {α : Type} (tasks : List α) (order : List Nat)
    (h : ∀ j, j < tasks.length → j ∈ order) :
    promiseAllOrdered tasks order = some tasks := by
  have hlen : (List.replicate tasks.length (none : Option α)).length = tasks.length := by
    simp
  have hsettled :
      settleAll tasks order (List.replicate tasks.length none) = tasks.map some := by
    apply list_ext_getq
    intro j
    by_cases hj : j < tasks.length
    · rw [settleAll_getq tasks order _ hlen j hj]
      rw [if_pos (h j hj)]
      rw [List.getElem?_map, List.getElem?_eq_getElem hj]
      rfl
    · have h1 : (settleAll tasks order (List.replicate tasks.length none)).length ≤ j := by
        rw [settleAll_length tasks order, hlen]
        omega
      have h2 : (tasks.map some).length ≤ j := by
        rw [List.length_map]
        omega
      rw [List.getElem?_eq_none h1, List.getElem?_eq_none h2]
  unfold promiseAllOrdered
  rw [hsettled]
  have hall : (tasks.map some).all Option.isSome = true := by
    simp [List.all_eq_true]
  rw [if_pos hall]
  congr 1
  rw [List.filterMap_map]
  simp

/-! ### C5: report outcomes keep declaration order -/

/-- **C5.** For every fan-out round, the outcome sequence has the same length
as the target list and its `j`-th entry is the probe of the `j`-th declared
target; and under every completion order of the concurrent probes that
settles each probe, the `Promise.all` aggregation resolves with exactly this
declaration-ordered sequence. -/
theorem c5_outcome_order (oracle : Oracle) (domain recordType : String)
    (servers : List Server) (order : List Nat)
    (horder : ∀ j, j < servers.length → j ∈ order) :
    promiseAllOrdered (servers.map (checkDNSServer oracle domain recordType)) order =
      some (checkPropagation oracle domain recordType servers).results ∧
    (checkPropagation oracle domain recordType servers).results.length = servers.length ∧
    ∀ j (hj : j < servers.length),
      (checkPropagation oracle domain recordType servers).results[j]? =
        some (checkDNSServer oracle domain recordType (servers.get ⟨j, hj⟩)) := by
  have hres : (checkPropagation oracle domain recordType servers).results
      = servers.map (checkDNSServer oracle domain recordType) := rfl
  refine ⟨?_, ?_, ?_⟩
  · rw [hres]
    apply promiseAllOrdered_eq
    intro j hj
    exact horder j (by simpa using hj)
  · rw [hres, List.length_map]
  · intro j hj
    rw [hres, List.getElem?_map, List.getElem?_eq_getElem hj]
    rfl

/-- Witness for C5: two targets whose probes complete in reverse order
(`order = [1, 0]`) still aggregate to the declaration-ordered results. -/
theorem c5_witness :
    promiseAllOrdered
        ((DNS_SERVERS.take 2).map (checkDNSServer oracleAllFail "example.org" "A"))
        [1, 0] =
      some (checkPropagation oracleAllFail "example.org" "A" (DNS_SERVERS.take 2)).results :=
  (c5_outcome_order oracleAllFail "example.org" "A" (DNS_SERVERS.take 2) [1, 0]
    (by decide)).1

end DnsPropagation

namespace DnssecTest

/-! ### C8: only the first captured timestamp feeds the validity decision -/

/-- **C8.** The DNSSEC validity check parses the *first* 14-digit capture
group of the RRSIG answer as the expiration date and validates only that
this expiration lies in the future: whenever two answer texts match the
pattern with the same first group, the decision is identical regardless of
their second captured timestamp (the inception time) and key tag; and the
date is built from the raw digit slices of the first group (month made
0-based) with no time-zone adjustment, for every host `Date` semantics
`getTime`. -/
theorem c8_expiration_only (getTime : JsDate → Int)
    (t1 t2 : String) (now : Int) (e i1 i2 k1 k2 : String)
    (h1 : rrsigFind t1.toList = some (e, i1, k1))
    (h2 : rrsigFind t2.toList = some (e, i2, k2)) :
    signatureExpirationDate t1 = some (parseExpDate e) ∧
    signatureNotExpired getTime t1 now = decide (now < getTime (parseExpDate e)) ∧
    signatureNotExpired getTime t1 now = signatureNotExpired getTime t2 now ∧
    parseExpDate e =
      { year := jsParseIntDigits (jsSlice e 0 4)
      , monthIndex := jsParseIntDigits (jsSlice e 4 6) - 1
      , day := jsParseIntDigits (jsSlice e 6 8)
      , hours := jsParseIntDigits (jsSlice e 8 10)
      , minutes := jsParseIntDigits (jsSlice e 10 12)
      , seconds := jsParseIntDigits (jsSlice e 12 14) } := by
  refine ⟨?_, ?_, ?_, rfl⟩
  · unfold signatureExpirationDate
    rw [h1]
    rfl
  · unfold signatureNotExpired
    rw [h1]
  · unfold signatureNotExpired
    rw [h1, h2]

/-- Witness for C8: on a concrete `dig` answer line the regex captures the
first 14-digit run (the expiration) and the parsed date is its raw
components (January is month index 0, no offset applied); a second text
with a different inception and key tag yields the same decision. -/
theorem c8_witness :
    signatureExpirationDate rrsigText1 =
      some { year := 2026, monthIndex := 0, day := 1
           , hours := 0, minutes := 0, seconds := 0 } ∧
    signatureNotExpired (fun d => d.year) rrsigText1 2025 =
      signatureNotExpired (fun d => d.year) rrsigText2 2025 := by
  have h := c8_expiration_only (fun d => d.year) rrsigText1 rrsigText2 2025
    "20260101000000" "20250315000000" "20240101000000" "12345" "54321"
    (by decide) (by decide)
  exact ⟨by rw [h.1]; decide, h.2.2.1⟩

end DnssecTest
